import Mathlib

/-!
Shallow embedding of the mystery-box core of the repository
(`server/services/mysteryBoxService.js`, `server/services/shopifyService.js`,
`server/services/liveShopifyService.js`) together with theorems about the
claims of the specification.

Conventions of the embedding:
* JavaScript numbers that the code obtains from `parseFloat` and arithmetic
  are modelled as rationals (`ℚ`); the single special value `NaN` that
  `parseFloat` can produce is modelled explicitly by the type `JsNum`.
* `Math.random()` is modelled as a stream `rand : ℕ → ℚ` of the successive
  values returned by the generator; the real generator always yields values
  in `[0, 1)`, which theorems assume where it matters.
* String-encoded JSON fields (`tags`, `variants`, …) are modelled by their
  parse result; a field whose parse fails is `Option.none`.
* The decimal literals `0.01` and `0.9` of the source are written `1/100`
  and `9/10`.
* Database rows are modelled as Lean structures holding exactly the fields
  the claims are about; stores are association lists keyed like the unique
  keys of the schema.
-/

set_option maxRecDepth 40000

attribute [local semireducible] Rat.add Rat.mul Rat.sub Rat.inv

instance {ε α : Type} [DecidableEq ε] [DecidableEq α] : DecidableEq (Except ε α) := fun a b =>
  match a, b with
  | .ok x, .ok y => if h : x = y then isTrue (by rw [h]) else isFalse (by simp [h])
  | .error x, .error y => if h : x = y then isTrue (by rw [h]) else isFalse (by simp [h])
  | .ok _, .error _ => isFalse (by simp)
  | .error _, .ok _ => isFalse (by simp)

/-- Decidable check that the list of characters `needle` is a prefix of `hay`;
used to model JavaScript `String.prototype.includes`. -/
def charsLeading : List Char → List Char → Bool
  | [], _ => true
  | _ :: _, [] => false
  | a :: as, b :: bs => a = b && charsLeading as bs

/-- Decidable check that `needle` occurs contiguously inside `hay`. -/
def charsSubstring : List Char → List Char → Bool
  | needle, [] => charsLeading needle []
  | needle, c :: rest => charsLeading needle (c :: rest) || charsSubstring needle rest

/-- Characters of a string lowered with `Char.toLower`, modelling
JavaScript `s.toLowerCase()` (they agree on the ASCII tags and filters the
application stores). -/
def lowerChars (s : String) : List Char :=
  s.toList.map Char.toLower

namespace MysteryBoxService

/-- One row of the `productCache` table as read by the selection engine
(`generateMysteryBox`).  `tags` is the parse result of the JSON string
stored in the row: `none` models a string that does not parse to a list
of strings (the code then skips the tag filter for that product). -/
structure Product where
  shopifyProductId : ℕ
  price : ℚ
  compareAtPrice : Option ℚ
  productType : String
  tags : Option (List String)
  status : String
  inventoryQuantity : ℤ
deriving DecidableEq

/-- Fields of a `mysteryBox` configuration row used by `generateMysteryBox`;
the four filter lists are the parse results of the JSON strings stored on
the row. -/
structure MysteryBoxConfig where
  minValue : ℚ
  maxValue : ℚ
  minItems : ℕ
  maxItems : ℕ
  includeTags : List String
  excludeTags : List String
  includeProductTypes : List String
  excludeProductTypes : List String
deriving DecidableEq

/-- Model of `pTag.toLowerCase().includes(tag.toLowerCase())` from the tag
filter of `generateMysteryBox`: case-insensitive substring containment of
the filter tag inside the product tag. -/
def tagMatches (tag pTag : String) : Bool :=
  charsSubstring (lowerChars tag) (lowerChars pTag)

/-- Model of the Prisma `whereClause` of `generateMysteryBox`: active status,
positive stock, `price ≥ 0.01`, and the product-type conditions.  The source
assigns `whereClause.productType = {in: …}` and then, when `excludeProductTypes`
is non-empty, overwrites the same key with `{notIn: …}`, so a non-empty
exclude list makes the include list ineffective; the embedding reproduces
that overwrite. -/
def matchesWhereClause (cfg : MysteryBoxConfig) (p : Product) : Bool :=
  p.status == "active" && decide (0 < p.inventoryQuantity) &&
    decide ((1 : ℚ)/100 ≤ p.price) &&
    (if !cfg.excludeProductTypes.isEmpty then !cfg.excludeProductTypes.contains p.productType
     else if !cfg.includeProductTypes.isEmpty then cfg.includeProductTypes.contains p.productType
     else true)

/-- Model of the in-memory tag filter of `generateMysteryBox`.  A product
whose stored tag string does not parse is kept (the `catch` branch of the
source returns `true`). -/
def passesTagFilter (cfg : MysteryBoxConfig) (p : Product) : Bool :=
  match p.tags with
  | none => true
  | some productTags =>
    (cfg.includeTags.isEmpty ||
      cfg.includeTags.any fun tag => productTags.any fun pTag => tagMatches tag pTag) &&
    !(!cfg.excludeTags.isEmpty &&
      (cfg.excludeTags.any fun tag => productTags.any fun pTag => tagMatches tag pTag))

/-- Products surviving both the database `whereClause` and the tag filter:
the `filteredProducts` of `generateMysteryBox`. -/
def eligibleProducts (cfg : MysteryBoxConfig) (catalog : List Product) : List Product :=
  (catalog.filter (matchesWhereClause cfg)).filter (passesTagFilter cfg)

/-- Sum of the `price` fields of a list of products, as computed by
`selectedProducts.reduce((sum, p) => sum + p.price, 0)`. -/
def sumPrice (l : List Product) : ℚ := (l.map Product.price).sum

/-- Ascending stable sort by price, modelling
`[...products].sort((a, b) => a.price - b.price)`. -/
def sortByPriceAsc (l : List Product) : List Product :=
  l.insertionSort fun a b => a.price ≤ b.price

/-- Descending stable sort by price, modelling
`[...products].sort((a, b) => b.price - a.price)`. -/
def sortByPriceDesc (l : List Product) : List Product :=
  l.insertionSort fun a b => b.price ≤ a.price

/-- One execution of the `while` loop of `selectProducts`.  `fuel` is
`maxAttempts - attempts` (the loop guard `attempts < maxAttempts`), `k` is
the index of the next `Math.random()` call in the random stream, and
`selected`, `currentValue` are the loop accumulators.  The candidate chosen
from `availableProducts` is `availableProducts[Math.floor(rand * n)]`; with
the real generator the index is always in bounds, and `List.getD` with the
head as default makes the model total. -/
def selectLoop (sorted : List Product) (minValue targetValue : ℚ) (minItems : ℕ)
    (targetItems : ℤ) (rand : ℕ → ℚ) :
    ℕ → ℕ → List Product → ℚ → List Product × ℚ
  | 0, _, selected, currentValue => (selected, currentValue)
  | fuel + 1, k, selected, currentValue =>
    if (selected.length : ℤ) < targetItems then
      let remainingValue := targetValue - currentValue
      let available := sorted.filter fun p =>
        !(decide (p ∈ selected)) && decide (p.price ≤ remainingValue) &&
          decide ((1 : ℚ)/100 ≤ p.price)
      match available with
      | [] => (selected, currentValue)
      | q :: qs =>
        let n : ℕ :=
          if selected.length < minItems then min (qs.length + 1) 3 else qs.length + 1
        let idx : ℕ := (Rat.floor (rand k * (n : ℚ))).toNat
        let chosen := (q :: qs).getD idx q
        let selected2 := selected ++ [chosen]
        let currentValue2 := currentValue + chosen.price
        if minValue ≤ currentValue2 ∧ minItems ≤ selected2.length ∧
            (targetValue * (9/10) ≤ currentValue2 ∨ targetItems ≤ (selected2.length : ℤ)) then
          (selected2, currentValue2)
        else
          selectLoop sorted minValue targetValue minItems targetItems rand fuel (k + 1)
            selected2 currentValue2
    else (selected, currentValue)

/-- First `for` loop of `selectProductsFallback`: walk the products in
descending price order, skip a product when adding it would exceed
`maxValue`, stop once both minimums are met or `maxItems` is reached. -/
def fallbackPhase1 (minValue maxValue : ℚ) (minItems maxItems : ℕ) :
    List Product → List Product → ℚ → List Product × ℚ
  | [], selected, currentValue => (selected, currentValue)
  | p :: rest, selected, currentValue =>
    if maxItems ≤ selected.length then (selected, currentValue)
    else if maxValue < currentValue + p.price then
      fallbackPhase1 minValue maxValue minItems maxItems rest selected currentValue
    else
      let selected2 := selected ++ [p]
      let currentValue2 := currentValue + p.price
      if minValue ≤ currentValue2 ∧ minItems ≤ selected2.length then (selected2, currentValue2)
      else fallbackPhase1 minValue maxValue minItems maxItems rest selected2 currentValue2

/-- Second `for` loop of `selectProductsFallback`: add the cheapest remaining
products, still never exceeding `maxValue`, until `minItems` is reached. -/
def fallbackPhase2 (maxValue : ℚ) (minItems : ℕ) :
    List Product → List Product → ℚ → List Product × ℚ
  | [], selected, currentValue => (selected, currentValue)
  | p :: rest, selected, currentValue =>
    if minItems ≤ selected.length then (selected, currentValue)
    else if maxValue < currentValue + p.price then
      fallbackPhase2 maxValue minItems rest selected currentValue
    else fallbackPhase2 maxValue minItems rest (selected ++ [p]) (currentValue + p.price)

/-- Model of `MysteryBoxService.selectProductsFallback`. -/
def selectProductsFallback (products : List Product) (minValue maxValue : ℚ)
    (minItems maxItems : ℕ) : List Product :=
  let sorted := sortByPriceDesc products
  let r1 := fallbackPhase1 minValue maxValue minItems maxItems sorted [] 0
  if r1.1.length < minItems then
    let cheapest := sortByPriceAsc (products.filter fun p => !(decide (p ∈ r1.1)))
    (fallbackPhase2 maxValue minItems cheapest r1.1 r1.2).1
  else r1.1

/-- Model of `MysteryBoxService.selectProducts`.  `rand 0` is the
`Math.random()` call for `targetValue`, `rand 1` the one for `targetItems`,
and `rand (2 + t)` the call of loop iteration `t`. -/
def selectProducts (products : List Product) (minValue maxValue : ℚ)
    (minItems maxItems : ℕ) (rand : ℕ → ℚ) : List Product :=
  let sorted := sortByPriceAsc products
  let targetValue := minValue + rand 0 * (maxValue - minValue)
  let targetItems : ℤ :=
    (minItems : ℤ) + Rat.floor (rand 1 * ((maxItems : ℚ) - (minItems : ℚ) + 1))
  let r := selectLoop sorted minValue targetValue minItems targetItems rand 1000 2 [] 0
  if r.1.length < minItems ∨ r.2 < minValue then
    selectProductsFallback products minValue maxValue minItems maxItems
  else r.1

/-- Value used by `calculateSavings` for one product:
`p.compareAtPrice || p.price` (a stored `0` or `null` is falsy and falls
back to the price). -/
def compareAtOrPrice (p : Product) : ℚ :=
  match p.compareAtPrice with
  | none => p.price
  | some c => if c = 0 then p.price else c

/-- Model of `MysteryBoxService.calculateSavings`. -/
def calculateSavings (selected : List Product) (totalValue : ℚ) : ℚ :=
  max 0 ((selected.map compareAtOrPrice).sum - totalValue)

/-- Errors surfaced by `generateMysteryBox`; the source throws
`new Error('No products match the mystery box criteria')`. -/
inductive GenError where
  | noEligibleItems
deriving DecidableEq

/-- The mystery-box instance shape returned by `generateMysteryBox`.
`products` holds the selected catalog products (the source persists a field
projection of each, which is irrelevant to the claims). -/
structure BoxInstance where
  products : List Product
  totalValue : ℚ
  itemCount : ℕ
  savings : ℚ
deriving DecidableEq

/-- The list of products put into the generated box: eligibility filter
followed by the selection algorithm. -/
def mysteryBoxSelection (cfg : MysteryBoxConfig) (catalog : List Product)
    (rand : ℕ → ℚ) : List Product :=
  selectProducts (eligibleProducts cfg catalog) cfg.minValue cfg.maxValue
    cfg.minItems cfg.maxItems rand

/-- Model of `MysteryBoxService.generateMysteryBox` on a catalog snapshot. -/
def generateMysteryBox (cfg : MysteryBoxConfig) (catalog : List Product)
    (rand : ℕ → ℚ) : Except GenError BoxInstance :=
  let filtered := eligibleProducts cfg catalog
  if filtered.isEmpty then .error .noEligibleItems
  else
    let selected := mysteryBoxSelection cfg catalog rand
    let totalValue := sumPrice selected
    .ok { products := selected, totalValue := totalValue, itemCount := selected.length,
          savings := calculateSavings selected totalValue }

/-- The two fields of a stored `boxInstance` row used by `getStatistics`. -/
structure StoredInstance where
  totalValue : ℚ
  itemCount : ℕ
deriving DecidableEq

/-- A `{min, max}` pair as returned in `valueRange` and `itemRange`. -/
structure RangeStat where
  min : ℚ
  max : ℚ
deriving DecidableEq

/-- The statistics object returned by `MysteryBoxService.getStatistics`. -/
structure Statistics where
  totalGenerated : ℕ
  averageValue : ℚ
  averageItems : ℚ
  totalValue : ℚ
  valueRange : RangeStat
  itemRange : RangeStat
deriving DecidableEq

/-- Model of `Math.min(...values)` on the non-empty argument lists the code
builds (the empty case never occurs in `getStatistics`). -/
def jsMinList : List ℚ → ℚ
  | [] => 0
  | x :: xs => xs.foldl min x

/-- Model of `Math.max(...values)` on non-empty argument lists. -/
def jsMaxList : List ℚ → ℚ
  | [] => 0
  | x :: xs => xs.foldl max x

/-- Model of `MysteryBoxService.getStatistics` as a pure function of the
instance rows returned by the database query. -/
def getStatistics (instances : List StoredInstance) : Statistics :=
  if instances.isEmpty then
    { totalGenerated := 0, averageValue := 0, averageItems := 0, totalValue := 0,
      valueRange := { min := 0, max := 0 }, itemRange := { min := 0, max := 0 } }
  else
    let totalGenerated := instances.length
    let totalValue := (instances.map StoredInstance.totalValue).sum
    let totalItems := (instances.map fun i => (i.itemCount : ℚ)).sum
    let values := instances.map StoredInstance.totalValue
    let itemCounts := instances.map fun i => (i.itemCount : ℚ)
    { totalGenerated := totalGenerated
      averageValue := totalValue / (totalGenerated : ℚ)
      averageItems := totalItems / (totalGenerated : ℚ)
      totalValue := totalValue
      valueRange := { min := jsMinList values, max := jsMaxList values }
      itemRange := { min := jsMinList itemCounts, max := jsMaxList itemCounts } }

end MysteryBoxService

namespace ShopifySync

/-- A numeric field of a raw API payload, abstracted by its JavaScript
truthiness and `parseFloat` result: `missing` is an absent/empty field,
`str none` a present string on which `parseFloat` returns `NaN`, and
`str (some q)` a string parsing to `q`. -/
inductive RawNumField where
  | missing
  | str (parsed : Option ℚ)
deriving DecidableEq

/-- A JavaScript number: either `NaN` or a rational value. -/
inductive JsNum where
  | nan
  | val (q : ℚ)
deriving DecidableEq

/-- Model of `parseFloat(x || 0)` applied to a raw field `x`. -/
def parseFloatOrZero : RawNumField → JsNum
  | .missing => .val 0
  | .str none => .nan
  | .str (some q) => .val q

/-- The fields of a raw API variant the sync code consumes. -/
structure RawVariant where
  id : ℕ
  price : RawNumField
  inventoryQuantity : Option ℤ
deriving DecidableEq

/-- A raw API product.  `variants` and `images` are `none` when the field is
absent from the payload (in which case `product.variants[0]` respectively
`product.images.map` throws a `TypeError` in `cacheProduct`). -/
structure RawProduct where
  id : ℕ
  variants : Option (List RawVariant)
  images : Option (List ℕ)
deriving DecidableEq

/-- The fields of a `productCache` row written by the sync engine that the
claims are about.  `price` can be `NaN` because `cacheProduct` stores the
`parseFloat` result unchecked. -/
structure CachedProduct where
  shopifyProductId : ℕ
  price : JsNum
  inventoryQuantity : ℤ
deriving DecidableEq

/-- Sum of `(v.inventory_quantity || 0)` over the variants. -/
def totalInventory (vs : List RawVariant) : ℤ :=
  (vs.map fun v => v.inventoryQuantity.getD 0).sum

/-- Model of `parseFloat(product.variants[0]?.price || 0)`: for an empty
variant list, the optional chain yields `undefined` and `parseFloat(0)`
gives `0`. -/
def headVariantPrice (vs : List RawVariant) : JsNum :=
  match vs with
  | [] => .val 0
  | v :: _ => parseFloatOrZero v.price

/-- Per-item failures of `ShopifyService.cacheProduct`: a `TypeError` from
dereferencing a missing `variants` or `images` field. -/
inductive CacheError where
  | typeError
deriving DecidableEq

/-- The row `ShopifyService.cacheProduct` tries to write for a raw product,
or the error it throws on a malformed payload. -/
def buildProductData (p : RawProduct) : Except CacheError CachedProduct :=
  match p.variants with
  | none => .error .typeError
  | some vs =>
    match p.images with
    | none => .error .typeError
    | some _ =>
      .ok { shopifyProductId := p.id, price := headVariantPrice vs,
            inventoryQuantity := totalInventory vs }

/-- The product-cache table of one shop, in row order. -/
abbrev Store := List CachedProduct

/-- Model of `findFirst` by product id followed by `update`, or `create`
when no row matches; the returned `Bool` is the `created` flag. -/
def upsertRow : Store → CachedProduct → Bool × Store
  | [], row => (true, [row])
  | r :: rs, row =>
    if r.shopifyProductId = row.shopifyProductId then (false, row :: rs)
    else
      let res := upsertRow rs row
      (res.1, r :: res.2)

/-- Model of `ShopifyService.cacheProduct`. -/
def cacheProduct (store : Store) (p : RawProduct) : Except CacheError (Bool × Store) :=
  match buildProductData p with
  | .error e => .error e
  | .ok row => .ok (upsertRow store row)

/-- One page of the paginated products endpoint: the parsed body plus the
`page_info` cursor extracted from the `Link` header (`none` when the header
has no `rel="next"` entry). -/
structure FetchPage where
  products : List RawProduct
  nextPageInfo : Option String
deriving DecidableEq

/-- The page-count ceiling `maxPages = 50` of `ShopifyService.syncProducts`. -/
def maxPages : ℕ := 50

/-- The `do … while (nextPageInfo && pageCount < maxPages)` loop of
`ShopifyService.syncProducts`.  `fuel` equals `maxPages - pageCount`, so the
`0` branch is never reached from the initial call. -/
def fetchPagesAux (fetch : Option String → FetchPage) :
    ℕ → Option String → List RawProduct → ℕ → List RawProduct × ℕ
  | 0, _, acc, pages => (acc, pages)
  | fuel + 1, cursor, acc, pages =>
    let page := fetch cursor
    let acc2 := acc ++ page.products
    let pages2 := pages + 1
    match page.nextPageInfo with
    | none => (acc2, pages2)
    | some c =>
      if 0 < fuel then fetchPagesAux fetch fuel (some c) acc2 pages2
      else (acc2, pages2)

/-- All products and the page count fetched by `ShopifyService.syncProducts`. -/
def fetchAllPages (fetch : Option String → FetchPage) : List RawProduct × ℕ :=
  fetchPagesAux fetch maxPages none [] 0

/-- The report object returned by `ShopifyService.syncProducts`. -/
structure SyncReport where
  totalProducts : ℕ
  created : ℕ
  updated : ℕ
  pages : ℕ
deriving DecidableEq

/-- The `for (const product of allProducts)` loop of
`ShopifyService.syncProducts`: `cacheProduct` has no per-item recovery (its
`catch` re-throws), so the first failing item aborts the whole call. -/
def cacheAll : List RawProduct → Store → ℕ → ℕ → Except CacheError ((ℕ × ℕ) × Store)
  | [], store, created, updated => .ok ((created, updated), store)
  | p :: ps, store, created, updated =>
    match cacheProduct store p with
    | .error e => .error e
    | .ok res =>
      cacheAll ps res.2 (if res.1 then created + 1 else created)
        (if res.1 then updated else updated + 1)

/-- Model of `ShopifyService.syncProducts` over a fetch function and the
current cache contents of the shop. -/
def syncProducts (fetch : Option String → FetchPage) (store : Store) :
    Except CacheError (SyncReport × Store) :=
  let fetched := fetchAllPages fetch
  match cacheAll fetched.1 store 0 0 with
  | .error e => .error e
  | .ok res =>
    .ok ({ totalProducts := fetched.1.length, created := res.1.1, updated := res.1.2,
           pages := fetched.2 }, res.2)

/-- The report returned by `LiveShopifyService.syncProducts`. -/
structure LiveReport where
  syncedCount : ℕ
  errorCount : ℕ
  totalProducts : ℕ
deriving DecidableEq

/-- The per-product loop of `LiveShopifyService.syncProducts`: a product
without variants is skipped (neither synced nor counted as an error); a
head-variant price that parses to `NaN` fails the `isNaN` validation, whose
throw is caught and counted in `errorCount`; otherwise the product is
upserted and counted in `syncedCount`. -/
def liveSyncAux : List RawProduct → Store → ℕ → ℕ → (ℕ × ℕ) × Store
  | [], store, synced, errors => ((synced, errors), store)
  | p :: ps, store, synced, errors =>
    match p.variants with
    | none => liveSyncAux ps store synced errors
    | some [] => liveSyncAux ps store synced errors
    | some (v :: vs) =>
      match parseFloatOrZero v.price with
      | .nan => liveSyncAux ps store synced (errors + 1)
      | .val q =>
        let row : CachedProduct :=
          { shopifyProductId := p.id, price := .val q,
            inventoryQuantity := totalInventory (v :: vs) }
        liveSyncAux ps (upsertRow store row).2 (synced + 1) errors

/-- Model of `LiveShopifyService.syncProducts` applied to the products
returned by `getAllProducts`. -/
def liveSyncProducts (products : List RawProduct) (store : Store) : LiveReport × Store :=
  let res := liveSyncAux products store 0 0
  ({ syncedCount := res.1.1, errorCount := res.1.2, totalProducts := products.length }, res.2)

/-- The `while (hasNextPage)` loop of `LiveShopifyService.getAllProducts`.
The source has no page-count ceiling, so the model is indexed by `fuel`, the
number of loop iterations allowed: `none` means the loop is still running
after `fuel` pages. -/
def liveFetchAux (fetch : Option String → FetchPage) :
    ℕ → Option String → List RawProduct → ℕ → Option (List RawProduct × ℕ)
  | 0, _, _, _ => none
  | fuel + 1, cursor, acc, pages =>
    let page := fetch cursor
    let acc2 := acc ++ page.products
    let pages2 := pages + 1
    match page.nextPageInfo with
    | none => some (acc2, pages2)
    | some c => liveFetchAux fetch fuel (some c) acc2 pages2

/-- Model of `LiveShopifyService.getAllProducts`, with the fetched product
list paired with the number of pages, or `none` when the loop has not
finished within `fuel` iterations. -/
def liveGetAllProducts (fetch : Option String → FetchPage) (fuel : ℕ) :
    Option (List RawProduct × ℕ) :=
  liveFetchAux fetch fuel none [] 0

/-- A product on which the per-item body of `LiveShopifyService.syncProducts`
throws (and the `catch` counts an error): it has at least one variant and its
first variant's price parses to `NaN`. -/
def liveItemFails (p : RawProduct) : Bool :=
  match p.variants with
  | some (v :: _) => decide (parseFloatOrZero v.price = .nan)
  | _ => false

/-- A product that `LiveShopifyService.syncProducts` upserts and counts in
`syncedCount`: it has at least one variant and its first variant's price
parses to a number. -/
def liveItemSyncs (p : RawProduct) : Bool :=
  match p.variants with
  | some (v :: _) => !(decide (parseFloatOrZero v.price = .nan))
  | _ => false

/-- The store holds a row for product id `i`. -/
def hasId (store : Store) (i : ℕ) : Prop :=
  ∃ r ∈ store, r.shopifyProductId = i

/-- A stored price that is a number and non-negative. -/
def priceNonneg : JsNum → Prop
  | .nan => False
  | .val q => 0 ≤ q

/-- The row invariant of the claim about sync output: non-negative price and
non-negative stock. -/
def rowOk (r : CachedProduct) : Prop :=
  priceNonneg r.price ∧ 0 ≤ r.inventoryQuantity

/-- A raw variant whose price parses to a non-negative number and whose
inventory quantity is non-negative. -/
def variantOk (v : RawVariant) : Prop :=
  priceNonneg (parseFloatOrZero v.price) ∧ 0 ≤ v.inventoryQuantity.getD 0

instance : DecidablePred priceNonneg := fun j =>
  match j with
  | .nan => isFalse fun h => h
  | .val q => inferInstanceAs (Decidable (0 ≤ q))

instance (v : RawVariant) : Decidable (variantOk v) :=
  inferInstanceAs (Decidable (_ ∧ _))

instance (r : CachedProduct) : Decidable (rowOk r) :=
  inferInstanceAs (Decidable (_ ∧ _))

/-- Every product on every page the fetch function can return has only
well-formed variants. -/
def fetchWellFormed (fetch : Option String → FetchPage) : Prop :=
  ∀ cursor, ∀ p ∈ (fetch cursor).products, ∀ v ∈ p.variants.getD [], variantOk v

/-- Runs `ShopifyService.syncProducts` twice against the same upstream data,
returning the two reports when both runs succeed. -/
def runSyncTwice (fetch : Option String → FetchPage) (store : Store) :
    Option (SyncReport × SyncReport) :=
  match syncProducts fetch store with
  | .error _ => none
  | .ok res1 =>
    match syncProducts fetch res1.2 with
    | .error _ => none
    | .ok res2 => some (res1.1, res2.1)

end ShopifySync

section ConcreteInputs

open MysteryBoxService ShopifySync

/-- A random stream that always yields `0`, a value the real generator can
produce. -/
def zeroRand : ℕ → ℚ := fun _ => 0

/-- An in-stock active product priced at 5. -/
def exProduct : Product :=
  { shopifyProductId := 1, price := 5, compareAtPrice := none, productType := "Apparel",
    tags := some [], status := "active", inventoryQuantity := 3 }

/-- A second in-stock active product priced at 7. -/
def exProduct2 : Product :=
  { shopifyProductId := 2, price := 7, compareAtPrice := none, productType := "Apparel",
    tags := some [], status := "active", inventoryQuantity := 4 }

/-- A configuration demanding a total value between 100 and 101 from a
catalog whose only item costs 5 (the shape of spec scenario C). -/
def unsatisfiableConfig : MysteryBoxConfig :=
  { minValue := 100, maxValue := 101, minItems := 1, maxItems := 1,
    includeTags := [], excludeTags := [], includeProductTypes := [], excludeProductTypes := [] }

/-- A configuration with a satisfiable value range and no filters. -/
def easyConfig : MysteryBoxConfig :=
  { minValue := 1, maxValue := 20, minItems := 1, maxItems := 2,
    includeTags := [], excludeTags := [], includeProductTypes := [], excludeProductTypes := [] }

/-- A configuration admitting only products of type Electronics (spec
scenario B). -/
def electronicsConfig : MysteryBoxConfig :=
  { minValue := 1, maxValue := 20, minItems := 1, maxItems := 2,
    includeTags := [], excludeTags := [], includeProductTypes := ["Electronics"],
    excludeProductTypes := [] }

/-- An active in-stock product whose stored tag string does not parse. -/
def unparsedTagsProduct : Product :=
  { shopifyProductId := 9, price := 10, compareAtPrice := none, productType := "Apparel",
    tags := none, status := "active", inventoryQuantity := 2 }

/-- A configuration whose tag filter admits only items tagged electronics. -/
def electronicsTagConfig : MysteryBoxConfig :=
  { minValue := 1, maxValue := 20, minItems := 1, maxItems := 1,
    includeTags := ["electronics"], excludeTags := [], includeProductTypes := [],
    excludeProductTypes := [] }

/-- An active in-stock product tagged with an electronics tag. -/
def electronicsTagProduct : Product :=
  { shopifyProductId := 8, price := 10, compareAtPrice := none, productType := "Apparel",
    tags := some ["Electronics-Gadget"], status := "active", inventoryQuantity := 2 }

/-- A product priced at 1 for the negative-value-range counterexample. -/
def unitProduct : Product :=
  { shopifyProductId := 3, price := 1, compareAtPrice := none, productType := "Apparel",
    tags := some [], status := "active", inventoryQuantity := 1 }

/-- A raw variant priced 5 with stock 2. -/
def exVariant : RawVariant := { id := 11, price := .str (some 5), inventoryQuantity := some 2 }

/-- A well-formed raw product with one variant. -/
def exRaw : RawProduct := { id := 1, variants := some [exVariant], images := some [] }

/-- Upstream data consisting of the single page `[exRaw]`. -/
def exFetch : Option String → FetchPage :=
  fun _ => { products := [exRaw], nextPageInfo := none }

/-- A raw product with an empty variants array. -/
def zeroVariantRaw : RawProduct := { id := 1, variants := some [], images := some [] }

/-- A raw product whose only variant has inventory quantity −3. -/
def negStockRaw : RawProduct :=
  { id := 2, variants := some [{ id := 21, price := .str (some 4), inventoryQuantity := some (-3) }],
    images := some [] }

/-- Upstream page containing the zero-variant product and the
negative-stock product. -/
def oddFetch : Option String → FetchPage :=
  fun _ => { products := [zeroVariantRaw, negStockRaw], nextPageInfo := none }

/-- A raw product whose payload is missing the `images` array, making
`cacheProduct` throw a `TypeError`. -/
def noImagesRaw : RawProduct := { id := 3, variants := some [exVariant], images := none }

/-- Upstream page with a malformed item followed by a well-formed one. -/
def mixedFetch : Option String → FetchPage :=
  fun _ => { products := [noImagesRaw, exRaw], nextPageInfo := none }

/-- A raw product whose first variant's price string parses to `NaN`. -/
def nanPriceRaw : RawProduct :=
  { id := 4, variants := some [{ id := 41, price := .str none, inventoryQuantity := some 1 }],
    images := some [] }

/-- A fetch function that returns a next cursor on every page. -/
def endlessFetch : Option String → FetchPage :=
  fun _ => { products := [], nextPageInfo := some ("c") }

/-- A fetch function whose first page is also the last. -/
def onePageFetch : Option String → FetchPage :=
  fun _ => { products := [exRaw], nextPageInfo := none }

/-- Two stored box instances for the statistics witness. -/
def exInstances : List StoredInstance := [{ totalValue := 10, itemCount := 2 },
  { totalValue := 4, itemCount := 1 }]

end ConcreteInputs

section ClaimTheorems

open MysteryBoxService ShopifySync

/-- Claim C5: when the eligibility filter (the database `whereClause`
together with the tag filter) matches no catalog item, `generateMysteryBox`
fails with the no-eligible-items error and no box instance is produced. -/
theorem C5_theorem (cfg : MysteryBoxConfig) (catalog : List Product) (rand : ℕ → ℚ)
    (h : eligibleProducts cfg catalog = []) :
    generateMysteryBox cfg catalog rand = .error .noEligibleItems := by
  simp [generateMysteryBox, h]

/-- Witness for C5 at spec scenario B: a template admitting only
Electronics against a catalog holding one Apparel item. -/
theorem C5_witness :
    eligibleProducts electronicsConfig [exProduct] = [] ∧
    generateMysteryBox electronicsConfig [exProduct] zeroRand = .error .noEligibleItems :=
  ⟨by decide, C5_theorem electronicsConfig [exProduct] zeroRand (by decide)⟩

/-- Counterexample to claim C1: on a catalog whose only item costs 5 and a
template demanding a value in [100, 101] (spec scenario C), the fallback
pass cannot reach `minValue`, yet `generateMysteryBox` succeeds and returns
an instance with `totalValue = 5 < minValue` instead of failing with a
constraint-unsatisfiable error — no such error exists in the source. -/
theorem C1_counterexample :
    generateMysteryBox unsatisfiableConfig [exProduct] zeroRand =
      .ok { products := [exProduct], totalValue := 5, itemCount := 1, savings := 0 } ∧
    (5 : ℚ) < unsatisfiableConfig.minValue := by decide

/-- Counterexample to claim C4: `ShopifyService.cacheProduct` re-throws
per-item errors and `ShopifyService.syncProducts` has no per-item catch, so
with a first page `[noImagesRaw, exRaw]` the malformed first item makes the
whole call throw; the well-formed second item is never processed and no
report is returned. -/
theorem C4_counterexample :
    syncProducts mixedFetch [] = .error .typeError := by decide

/-- Counterexample to claim C2: syncing the unchanged one-product upstream
`exFetch` twice gives a second report with `updated = 1`, not `0`:
`cacheProduct` counts every upsert of an existing row as updated without
comparing item-level fields. -/
theorem C2_counterexample :
    (runSyncTwice exFetch []).map
      (fun rr => (rr.1.created, rr.1.updated, rr.2.created, rr.2.updated)) =
      some (1, 0, 0, 1) := by decide

/-- Counterexample to claim C3: after a sync of `oddFetch`, the zero-variant
product is stored (with price 0 and stock 0) rather than rejected, a stored
row has `stockQuantity = -3 < 0`, and `LiveShopifyService.syncProducts`
skips a zero-variant product without counting it as an error. -/
theorem C3_counterexample :
    syncProducts oddFetch [] =
      .ok ({ totalProducts := 2, created := 2, updated := 0, pages := 1 },
        [{ shopifyProductId := 1, price := .val 0, inventoryQuantity := 0 },
         { shopifyProductId := 2, price := .val 4, inventoryQuantity := -3 }]) ∧
    liveSyncProducts [zeroVariantRaw] [] =
      ({ syncedCount := 0, errorCount := 0, totalProducts := 1 }, []) := by decide

/-- Counterexample to claim C7: `LiveShopifyService.getAllProducts` has no
page-count ceiling; against a response sequence that always returns a next
cursor the loop is still running after 60 pages, so it neither stops at a
missing cursor nor at the claimed 50-page ceiling. -/
theorem C7_counterexample :
    liveGetAllProducts endlessFetch 60 = none := by decide

/-- Counterexample to claim C6: a product whose stored tag string does not
parse bypasses the tag filter (the `catch` branch keeps it), so it is
selected into a bundle although the template's non-empty `includeTags`
matches none of its tags. -/
theorem C6_counterexample :
    unparsedTagsProduct ∈ mysteryBoxSelection electronicsTagConfig [unparsedTagsProduct] zeroRand ∧
    electronicsTagConfig.includeTags ≠ [] ∧
    unparsedTagsProduct.tags = none := by decide

end ClaimTheorems

section HelperLemmas

open MysteryBoxService ShopifySync

theorem cons_getD_mem {α : Type} (q : α) (qs : List α) (idx : ℕ) :
    (q :: qs).getD idx q ∈ q :: qs := by
  rw [List.getD_eq_getElem?_getD]
  cases hx : (q :: qs)[idx]? with
  | none => simp
  | some x =>
    have hm : x ∈ q :: qs := List.getElem?_mem hx
    simp [hx, hm]

theorem foldl_min_le_init (xs : List ℚ) (x : ℚ) : xs.foldl min x ≤ x := by
  induction xs generalizing x with
  | nil => simp
  | cons y ys ih => exact le_trans (ih (min x y)) (min_le_left _ _)

theorem foldl_min_le_mem (xs : List ℚ) (x : ℚ) : ∀ v ∈ xs, xs.foldl min x ≤ v := by
  induction xs generalizing x with
  | nil => simp
  | cons y ys ih =>
    intro v hv
    rcases List.mem_cons.mp hv with h | h
    · subst h
      exact le_trans (foldl_min_le_init ys (min x v)) (min_le_right _ _)
    · exact ih (min x y) v h

theorem foldl_min_mem (xs : List ℚ) (x : ℚ) : xs.foldl min x = x ∨ xs.foldl min x ∈ xs := by
  induction xs generalizing x with
  | nil => left; rfl
  | cons y ys ih =>
    have hstep : (y :: ys).foldl min x = ys.foldl min (min x y) := rfl
    rcases ih (min x y) with h | h
    · rcases min_choice x y with hc | hc
      · left; rw [hstep, h, hc]
      · right; rw [hstep, h, hc]; exact List.mem_cons_self _ _
    · right; rw [hstep]; exact List.mem_cons_of_mem _ h

theorem init_le_foldl_max (xs : List ℚ) (x : ℚ) : x ≤ xs.foldl max x := by
  induction xs generalizing x with
  | nil => simp
  | cons y ys ih => exact le_trans (le_max_left _ _) (ih (max x y))

theorem mem_le_foldl_max (xs : List ℚ) (x : ℚ) : ∀ v ∈ xs, v ≤ xs.foldl max x := by
  induction xs generalizing x with
  | nil => simp
  | cons y ys ih =>
    intro v hv
    rcases List.mem_cons.mp hv with h | h
    · subst h
      exact le_trans (le_max_right _ _) (init_le_foldl_max ys (max x v))
    · exact ih (max x y) v h

theorem foldl_max_mem (xs : List ℚ) (x : ℚ) : xs.foldl max x = x ∨ xs.foldl max x ∈ xs := by
  induction xs generalizing x with
  | nil => left; rfl
  | cons y ys ih =>
    have hstep : (y :: ys).foldl max x = ys.foldl max (max x y) := rfl
    rcases ih (max x y) with h | h
    · rcases max_choice x y with hc | hc
      · left; rw [hstep, h, hc]
      · right; rw [hstep, h, hc]; exact List.mem_cons_self _ _
    · right; rw [hstep]; exact List.mem_cons_of_mem _ h

theorem jsMinList_spec (xs : List ℚ) (hne : xs ≠ []) :
    jsMinList xs ∈ xs ∧ ∀ v ∈ xs, jsMinList xs ≤ v := by
  cases xs with
  | nil => exact absurd rfl hne
  | cons y ys =>
    constructor
    · rcases foldl_min_mem ys y with h | h
      · rw [jsMinList, h]; exact List.mem_cons_self _ _
      · rw [jsMinList]; exact List.mem_cons_of_mem _ h
    · intro v hv
      rcases List.mem_cons.mp hv with h | h
      · subst h; exact foldl_min_le_init ys v
      · exact foldl_min_le_mem ys y v h

theorem jsMaxList_spec (xs : List ℚ) (hne : xs ≠ []) :
    jsMaxList xs ∈ xs ∧ ∀ v ∈ xs, v ≤ jsMaxList xs := by
  cases xs with
  | nil => exact absurd rfl hne
  | cons y ys =>
    constructor
    · rcases foldl_max_mem ys y with h | h
      · rw [jsMaxList, h]; exact List.mem_cons_self _ _
      · rw [jsMaxList]; exact List.mem_cons_of_mem _ h
    · intro v hv
      rcases List.mem_cons.mp hv with h | h
      · subst h; exact init_le_foldl_max ys v
      · exact mem_le_foldl_max ys y v h

end HelperLemmas

section StatisticsClaim

open MysteryBoxService

/-- Claim C8: `getStatistics` is a pure function of the instance rows that
returns all-zero defaults for a template with no instances, and otherwise
returns the exact averages (sum divided by count) and the exact minima and
maxima of the instance total values and item counts. -/
theorem C8_theorem :
    getStatistics [] =
      { totalGenerated := 0, averageValue := 0, averageItems := 0, totalValue := 0,
        valueRange := { min := 0, max := 0 }, itemRange := { min := 0, max := 0 } } ∧
    ∀ insts : List StoredInstance, insts ≠ [] →
      (getStatistics insts).totalGenerated = insts.length ∧
      (getStatistics insts).totalValue = (insts.map StoredInstance.totalValue).sum ∧
      (getStatistics insts).averageValue =
        (insts.map StoredInstance.totalValue).sum / (insts.length : ℚ) ∧
      (getStatistics insts).averageItems =
        (insts.map fun i => (i.itemCount : ℚ)).sum / (insts.length : ℚ) ∧
      ((getStatistics insts).valueRange.min ∈ insts.map StoredInstance.totalValue ∧
        ∀ v ∈ insts.map StoredInstance.totalValue, (getStatistics insts).valueRange.min ≤ v) ∧
      ((getStatistics insts).valueRange.max ∈ insts.map StoredInstance.totalValue ∧
        ∀ v ∈ insts.map StoredInstance.totalValue, v ≤ (getStatistics insts).valueRange.max) ∧
      ((getStatistics insts).itemRange.min ∈ (insts.map fun i => (i.itemCount : ℚ)) ∧
        ∀ v ∈ insts.map fun i => (i.itemCount : ℚ), (getStatistics insts).itemRange.min ≤ v) ∧
      ((getStatistics insts).itemRange.max ∈ (insts.map fun i => (i.itemCount : ℚ)) ∧
        ∀ v ∈ insts.map fun i => (i.itemCount : ℚ), v ≤ (getStatistics insts).itemRange.max) := by
  constructor
  · rfl
  · intro insts hne
    have hnonempty : ¬insts.isEmpty := by
      cases insts with
      | nil => exact absurd rfl hne
      | cons i is => simp
    have hmapne : insts.map StoredInstance.totalValue ≠ [] := by
      cases insts with
      | nil => exact absurd rfl hne
      | cons i is => simp
    have hmapne2 : (insts.map fun i => (i.itemCount : ℚ)) ≠ [] := by
      cases insts with
      | nil => exact absurd rfl hne
      | cons i is => simp
    simp only [getStatistics, hnonempty, if_false, Bool.false_eq_true]
    refine ⟨trivial, trivial, trivial, trivial, ?_, ?_, ?_, ?_⟩
    · exact jsMinList_spec _ hmapne
    · exact jsMaxList_spec _ hmapne
    · exact jsMinList_spec _ hmapne2
    · exact jsMaxList_spec _ hmapne2

/-- Witness for C8 at a concrete pair of stored instances. -/
theorem C8_witness :
    (getStatistics exInstances).averageValue =
      (exInstances.map MysteryBoxService.StoredInstance.totalValue).sum /
        (exInstances.length : ℚ) ∧
    (getStatistics exInstances).valueRange.min ∈
      exInstances.map MysteryBoxService.StoredInstance.totalValue := by
  have h := C8_theorem.2 exInstances (by decide)
  exact ⟨h.2.2.1, h.2.2.2.2.1.1⟩

end StatisticsClaim

section PaginationClaim

open ShopifySync

theorem fetchPagesAux_pages_le (fetch : Option String → FetchPage) :
    ∀ (fuel : ℕ) (cursor : Option String) (acc : List RawProduct) (pages : ℕ),
      (fetchPagesAux fetch fuel cursor acc pages).2 ≤ pages + fuel := by
  intro fuel
  induction fuel with
  | zero => intro cursor acc pages; simp [fetchPagesAux]
  | succ f ih =>
    intro cursor acc pages
    simp only [fetchPagesAux]
    cases hn : (fetch cursor).nextPageInfo with
    | none => dsimp only; omega
    | some c =>
      dsimp only
      by_cases hf : 0 < f
      · rw [if_pos hf]
        have := ih (some c) (acc ++ (fetch cursor).products) (pages + 1)
        omega
      · rw [if_neg hf]; dsimp only; omega

theorem fetchPagesAux_pages_all_some (fetch : Option String → FetchPage)
    (hs : ∀ c, ((fetch c).nextPageInfo).isSome) :
    ∀ (fuel : ℕ) (cursor : Option String) (acc : List RawProduct) (pages : ℕ), 0 < fuel →
      (fetchPagesAux fetch fuel cursor acc pages).2 = pages + fuel := by
  intro fuel
  induction fuel with
  | zero => intro _ _ _ h; exact absurd h (lt_irrefl 0)
  | succ f ih =>
    intro cursor acc pages _
    simp only [fetchPagesAux]
    obtain ⟨c, hc⟩ := Option.isSome_iff_exists.mp (hs cursor)
    rw [hc]
    dsimp only
    by_cases hf : 0 < f
    · rw [if_pos hf]
      have := ih (some c) (acc ++ (fetch cursor).products) (pages + 1) hf
      omega
    · rw [if_neg hf]
      dsimp only
      omega

/-- Claim C7 (amended): the fetch loop of `ShopifyService.syncProducts`
never exceeds the 50-page ceiling, reaches exactly 50 pages on a response
sequence that always supplies a next cursor — returning the fetched
products normally, a truncation rather than a failure — while the loop of
`LiveShopifyService.getAllProducts` stops only when a page carries no next
cursor (in particular it finishes immediately, whatever the fuel, when the
first page has none). -/
theorem C7_theorem :
    (∀ fetch : Option String → FetchPage, (fetchAllPages fetch).2 ≤ maxPages) ∧
    (∀ fetch : Option String → FetchPage, (∀ c, ((fetch c).nextPageInfo).isSome) →
      (fetchAllPages fetch).2 = maxPages) ∧
    (∀ (fetch : Option String → FetchPage) (fuel : ℕ), (fetch none).nextPageInfo = none →
      liveGetAllProducts fetch (fuel + 1) = some ((fetch none).products, 1)) := by
  refine ⟨?_, ?_, ?_⟩
  · intro fetch
    have := fetchPagesAux_pages_le fetch maxPages none [] 0
    simpa [fetchAllPages] using this
  · intro fetch hs
    have := fetchPagesAux_pages_all_some fetch hs maxPages none [] 0 (by norm_num [maxPages])
    simpa [fetchAllPages] using this
  · intro fetch fuel hnone
    simp [liveGetAllProducts, liveFetchAux, hnone]

/-- Witness for C7: the bounds evaluated at a one-page catalog and at a
response sequence that always returns a cursor. -/
theorem C7_witness :
    (fetchAllPages onePageFetch).2 ≤ maxPages ∧
    (fetchAllPages endlessFetch).2 = maxPages ∧
    liveGetAllProducts onePageFetch 1 = some ([exRaw], 1) := by
  refine ⟨C7_theorem.1 onePageFetch, C7_theorem.2.1 endlessFetch (fun c => rfl), ?_⟩
  have h := C7_theorem.2.2 onePageFetch 0 rfl
  simpa [onePageFetch] using h

end PaginationClaim

section LiveSyncClaim

open ShopifySync

theorem liveSyncAux_counts (ps : List RawProduct) :
    ∀ (store : Store) (synced errors : ℕ),
      (liveSyncAux ps store synced errors).1.1 = synced + ps.countP liveItemSyncs ∧
      (liveSyncAux ps store synced errors).1.2 = errors + ps.countP liveItemFails := by
  induction ps with
  | nil => intro store synced errors; simp [liveSyncAux]
  | cons p ps ih =>
    intro store synced errors
    rcases hv : p.variants with _ | vs
    · have hs : liveItemSyncs p = false := by simp [liveItemSyncs, hv]
      have hf : liveItemFails p = false := by simp [liveItemFails, hv]
      simp only [liveSyncAux, hv, List.countP_cons, hs, hf]
      have := ih store synced errors
      simp [this.1, this.2]
    · cases vs with
      | nil =>
        have hs : liveItemSyncs p = false := by simp [liveItemSyncs, hv]
        have hf : liveItemFails p = false := by simp [liveItemFails, hv]
        simp only [liveSyncAux, hv, List.countP_cons, hs, hf]
        have := ih store synced errors
        simp [this.1, this.2]
      | cons v vrest =>
        rcases hq : parseFloatOrZero v.price with _ | q
        · have hs : liveItemSyncs p = false := by simp [liveItemSyncs, hv, hq]
          have hf : liveItemFails p = true := by simp [liveItemFails, hv, hq]
          simp only [liveSyncAux, hv, hq, List.countP_cons, hs, hf]
          have := ih store synced (errors + 1)
          simp [this.1, this.2]
          omega
        · have hs : liveItemSyncs p = true := by simp [liveItemSyncs, hv, hq]
          have hf : liveItemFails p = false := by simp [liveItemFails, hv, hq]
          simp only [liveSyncAux, hv, hq, List.countP_cons, hs, hf]
          set row : CachedProduct :=
            { shopifyProductId := p.id, price := .val q,
              inventoryQuantity := totalInventory (v :: vrest) }
          have := ih (upsertRow store row).2 (synced + 1) errors
          simp [this.1, this.2]
          omega

/-- Claim C4 (amended): `LiveShopifyService.syncProducts` recovers from
per-item failures — its report counts exactly the failing items in
`errorCount` and the successfully upserted items in `syncedCount`, over the
whole product list, so later items are still processed after a failure and
the call returns a report rather than throwing.  (`ShopifyService.syncProducts`,
by contrast, aborts on the first failing item.) -/
theorem C4_theorem (ps : List RawProduct) (store : Store) :
    (liveSyncProducts ps store).1.errorCount = ps.countP liveItemFails ∧
    (liveSyncProducts ps store).1.syncedCount = ps.countP liveItemSyncs ∧
    (liveSyncProducts ps store).1.totalProducts = ps.length := by
  have h := liveSyncAux_counts ps store 0 0
  refine ⟨?_, ?_, rfl⟩
  · simpa [liveSyncProducts] using h.2
  · simpa [liveSyncProducts] using h.1

end LiveSyncClaim

section SelectorLemmas

open MysteryBoxService

theorem mem_sortByPriceAsc {x : Product} {l : List Product} :
    x ∈ sortByPriceAsc l ↔ x ∈ l :=
  (List.perm_insertionSort _ l).mem_iff

theorem mem_sortByPriceDesc {x : Product} {l : List Product} :
    x ∈ sortByPriceDesc l ↔ x ∈ l :=
  (List.perm_insertionSort _ l).mem_iff

theorem nodup_sortByPriceAsc {l : List Product} (h : l.Nodup) : (sortByPriceAsc l).Nodup :=
  ((List.perm_insertionSort _ l).nodup_iff).mpr h

theorem nodup_sortByPriceDesc {l : List Product} (h : l.Nodup) : (sortByPriceDesc l).Nodup :=
  ((List.perm_insertionSort _ l).nodup_iff).mpr h

theorem sumPrice_append_singleton (l : List Product) (p : Product) :
    sumPrice (l ++ [p]) = sumPrice l + p.price := by
  simp [sumPrice]

theorem selectLoop_props (sorted : List Product) (minValue targetValue : ℚ)
    (minItems : ℕ) (targetItems : ℤ) (rand : ℕ → ℚ) :
    ∀ (fuel k : ℕ) (sel : List Product) (cv : ℚ) (res : List Product × ℚ),
      selectLoop sorted minValue targetValue minItems targetItems rand fuel k sel cv = res →
      (cv = sumPrice sel → res.2 = sumPrice res.1) ∧
      (∀ x ∈ res.1, x ∈ sel ∨ x ∈ sorted) ∧
      (sel.Nodup → res.1.Nodup) ∧
      res.1.length ≤ max sel.length targetItems.toNat ∧
      (cv ≤ max 0 targetValue → res.2 ≤ max 0 targetValue) := by
  intro fuel
  induction fuel with
  | zero =>
    intro k sel cv res h
    rw [selectLoop] at h
    subst h
    exact ⟨fun hs => hs, fun x hx => Or.inl hx, fun hn => hn, le_max_left _ _, fun hv => hv⟩
  | succ fuel ih =>
    intro k sel cv res h
    rw [selectLoop] at h
    by_cases hti : (sel.length : ℤ) < targetItems
    · rw [if_pos hti] at h
      dsimp only at h
      cases hav : sorted.filter fun p =>
          !(decide (p ∈ sel)) && decide (p.price ≤ targetValue - cv) &&
            decide ((1 : ℚ)/100 ≤ p.price) with
      | nil =>
        rw [hav] at h
        dsimp only at h
        subst h
        exact ⟨fun hs => hs, fun x hx => Or.inl hx, fun hn => hn, le_max_left _ _, fun hv => hv⟩
      | cons q qs =>
        rw [hav] at h
        dsimp only at h
        -- the chosen product is a member of the filtered list
        set n : ℕ := if sel.length < minItems then min (qs.length + 1) 3 else qs.length + 1 with hn
        set idx : ℕ := (Rat.floor (rand k * (n : ℚ))).toNat with hidx
        set chosen := (q :: qs).getD idx q with hchosen
        have hchosen_mem_filter : chosen ∈ sorted.filter fun p =>
            !(decide (p ∈ sel)) && decide (p.price ≤ targetValue - cv) &&
              decide ((1 : ℚ)/100 ≤ p.price) := by
          rw [hav]
          exact cons_getD_mem q qs idx
        have hchosen_sorted : chosen ∈ sorted := (List.mem_filter.mp hchosen_mem_filter).1
        have hchosen_props := (List.mem_filter.mp hchosen_mem_filter).2
        have hchosen_not_sel : chosen ∉ sel := by
          have := hchosen_props
          simp only [Bool.and_eq_true, Bool.not_eq_true', decide_eq_false_iff_not] at this
          exact this.1.1
        have hchosen_price : chosen.price ≤ targetValue - cv := by
          have := hchosen_props
          simp only [Bool.and_eq_true, decide_eq_true_eq] at this
          exact this.1.2
        have hlen2 : sel.length + 1 ≤ targetItems.toNat := by omega
        by_cases hbrk : minValue ≤ cv + chosen.price ∧ minItems ≤ (sel ++ [chosen]).length ∧
            (targetValue * (9/10) ≤ cv + chosen.price ∨
              targetItems ≤ ((sel ++ [chosen]).length : ℤ))
        · rw [if_pos hbrk] at h
          subst h
          refine ⟨?_, ?_, ?_, ?_, ?_⟩
          · intro hs
            simp [sumPrice_append_singleton, hs]
          · intro x hx
            rcases List.mem_append.mp hx with hx | hx
            · exact Or.inl hx
            · simp only [List.mem_singleton] at hx
              subst hx
              exact Or.inr hchosen_sorted
          · intro hnd
            simp [List.nodup_append, hnd, hchosen_not_sel]
          · simp only [List.length_append, List.length_singleton]
            omega
          · intro hcv
            have : cv + chosen.price ≤ targetValue := by linarith
            simp only []
            exact le_trans this (le_max_right _ _)
        · rw [if_neg hbrk] at h
          have hrec := ih (k + 1) (sel ++ [chosen]) (cv + chosen.price) res h
          refine ⟨?_, ?_, ?_, ?_, ?_⟩
          · intro hs
            exact hrec.1 (by simp [sumPrice_append_singleton, hs])
          · intro x hx
            rcases hrec.2.1 x hx with hx2 | hx2
            · rcases List.mem_append.mp hx2 with hx3 | hx3
              · exact Or.inl hx3
              · simp only [List.mem_singleton] at hx3
                subst hx3
                exact Or.inr hchosen_sorted
            · exact Or.inr hx2
          · intro hnd
            exact hrec.2.2.1 (by simp [List.nodup_append, hnd, hchosen_not_sel])
          · have := hrec.2.2.2.1
            simp only [List.length_append, List.length_singleton] at this
            omega
          · intro hcv
            refine hrec.2.2.2.2 ?_
            have : cv + chosen.price ≤ targetValue := by linarith
            exact le_trans this (le_max_right _ _)
    · rw [if_neg hti] at h
      subst h
      exact ⟨fun hs => hs, fun x hx => Or.inl hx, fun hn => hn, le_max_left _ _, fun hv => hv⟩

end SelectorLemmas

section FallbackLemmas

open MysteryBoxService

theorem fallbackPhase1_props (minValue maxValue : ℚ) (minItems maxItems : ℕ) :
    ∀ (l sel : List Product) (cv : ℚ) (res : List Product × ℚ),
      fallbackPhase1 minValue maxValue minItems maxItems l sel cv = res →
      (cv = sumPrice sel → res.2 = sumPrice res.1) ∧
      (∀ x ∈ res.1, x ∈ sel ∨ x ∈ l) ∧
      (sel.Nodup → l.Nodup → (∀ x ∈ l, x ∉ sel) → res.1.Nodup) ∧
      res.1.length ≤ max sel.length maxItems ∧
      (cv ≤ maxValue → res.2 ≤ maxValue) := by
  intro l
  induction l with
  | nil =>
    intro sel cv res h
    rw [fallbackPhase1] at h
    subst h
    exact ⟨fun hs => hs, fun x hx => Or.inl hx, fun hn _ _ => hn, le_max_left _ _, fun hv => hv⟩
  | cons p rest ih =>
    intro sel cv res h
    rw [fallbackPhase1] at h
    by_cases hmax : maxItems ≤ sel.length
    · rw [if_pos hmax] at h
      subst h
      exact ⟨fun hs => hs, fun x hx => Or.inl hx, fun hn _ _ => hn, le_max_left _ _, fun hv => hv⟩
    · rw [if_neg hmax] at h
      by_cases hval : maxValue < cv + p.price
      · rw [if_pos hval] at h
        have hrec := ih sel cv res h
        refine ⟨hrec.1, ?_, ?_, hrec.2.2.2.1, hrec.2.2.2.2⟩
        · intro x hx
          rcases hrec.2.1 x hx with hx2 | hx2
          · exact Or.inl hx2
          · exact Or.inr (List.mem_cons_of_mem _ hx2)
        · intro hnd hl hdisj
          exact hrec.2.2.1 hnd (List.Nodup.of_cons hl)
            (fun x hx => hdisj x (List.mem_cons_of_mem _ hx))
      · rw [if_neg hval] at h
        dsimp only at h
        push_neg at hval
        by_cases hbrk : minValue ≤ cv + p.price ∧ minItems ≤ (sel ++ [p]).length
        · rw [if_pos hbrk] at h
          subst h
          refine ⟨?_, ?_, ?_, ?_, ?_⟩
          · intro hs
            simp [sumPrice_append_singleton, hs]
          · intro x hx
            rcases List.mem_append.mp hx with hx | hx
            · exact Or.inl hx
            · simp only [List.mem_singleton] at hx
              subst hx
              exact Or.inr (List.mem_cons_self _ _)
          · intro hnd hl hdisj
            simp [List.nodup_append, hnd, hdisj p (List.mem_cons_self _ _)]
          · simp only [List.length_append, List.length_singleton]
            omega
          · intro _
            exact hval
        · rw [if_neg hbrk] at h
          have hrec := ih (sel ++ [p]) (cv + p.price) res h
          refine ⟨?_, ?_, ?_, ?_, ?_⟩
          · intro hs
            exact hrec.1 (by simp [sumPrice_append_singleton, hs])
          · intro x hx
            rcases hrec.2.1 x hx with hx2 | hx2
            · rcases List.mem_append.mp hx2 with hx3 | hx3
              · exact Or.inl hx3
              · simp only [List.mem_singleton] at hx3
                subst hx3
                exact Or.inr (List.mem_cons_self _ _)
            · exact Or.inr (List.mem_cons_of_mem _ hx2)
          · intro hnd hl hdisj
            have hpr : p ∉ rest := (List.nodup_cons.mp hl).1
            refine hrec.2.2.1 ?_ (List.Nodup.of_cons hl) ?_
            · simp [List.nodup_append, hnd, hdisj p (List.mem_cons_self _ _)]
            · intro x hx
              simp only [List.mem_append, List.mem_singleton]
              rintro (hxs | hxp)
              · exact hdisj x (List.mem_cons_of_mem _ hx) hxs
              · subst hxp
                exact hpr hx
          · have := hrec.2.2.2.1
            simp only [List.length_append, List.length_singleton] at this
            omega
          · intro hcv
            exact hrec.2.2.2.2 hval

theorem fallbackPhase2_props (maxValue : ℚ) (minItems : ℕ) :
    ∀ (l sel : List Product) (cv : ℚ) (res : List Product × ℚ),
      fallbackPhase2 maxValue minItems l sel cv = res →
      (cv = sumPrice sel → res.2 = sumPrice res.1) ∧
      (∀ x ∈ res.1, x ∈ sel ∨ x ∈ l) ∧
      (sel.Nodup → l.Nodup → (∀ x ∈ l, x ∉ sel) → res.1.Nodup) ∧
      res.1.length ≤ max sel.length minItems ∧
      (cv ≤ maxValue → res.2 ≤ maxValue) := by
  intro l
  induction l with
  | nil =>
    intro sel cv res h
    rw [fallbackPhase2] at h
    subst h
    exact ⟨fun hs => hs, fun x hx => Or.inl hx, fun hn _ _ => hn, le_max_left _ _, fun hv => hv⟩
  | cons p rest ih =>
    intro sel cv res h
    rw [fallbackPhase2] at h
    by_cases hmin : minItems ≤ sel.length
    · rw [if_pos hmin] at h
      subst h
      exact ⟨fun hs => hs, fun x hx => Or.inl hx, fun hn _ _ => hn, le_max_left _ _, fun hv => hv⟩
    · rw [if_neg hmin] at h
      by_cases hval : maxValue < cv + p.price
      · rw [if_pos hval] at h
        have hrec := ih sel cv res h
        refine ⟨hrec.1, ?_, ?_, hrec.2.2.2.1, hrec.2.2.2.2⟩
        · intro x hx
          rcases hrec.2.1 x hx with hx2 | hx2
          · exact Or.inl hx2
          · exact Or.inr (List.mem_cons_of_mem _ hx2)
        · intro hnd hl hdisj
          exact hrec.2.2.1 hnd (List.Nodup.of_cons hl)
            (fun x hx => hdisj x (List.mem_cons_of_mem _ hx))
      · rw [if_neg hval] at h
        push_neg at hval
        have hrec := ih (sel ++ [p]) (cv + p.price) res h
        refine ⟨?_, ?_, ?_, ?_, ?_⟩
        · intro hs
          exact hrec.1 (by simp [sumPrice_append_singleton, hs])
        · intro x hx
          rcases hrec.2.1 x hx with hx2 | hx2
          · rcases List.mem_append.mp hx2 with hx3 | hx3
            · exact Or.inl hx3
            · simp only [List.mem_singleton] at hx3
              subst hx3
              exact Or.inr (List.mem_cons_self _ _)
          · exact Or.inr (List.mem_cons_of_mem _ hx2)
        · intro hnd hl hdisj
          have hpr : p ∉ rest := (List.nodup_cons.mp hl).1
          refine hrec.2.2.1 ?_ (List.Nodup.of_cons hl) ?_
          · simp [List.nodup_append, hnd, hdisj p (List.mem_cons_self _ _)]
          · intro x hx
            simp only [List.mem_append, List.mem_singleton]
            rintro (hxs | hxp)
            · exact hdisj x (List.mem_cons_of_mem _ hx) hxs
            · subst hxp
              exact hpr hx
        · have := hrec.2.2.2.1
          simp only [List.length_append, List.length_singleton] at this
          omega
        · intro hcv
          exact hrec.2.2.2.2 hval

end FallbackLemmas

section SelectorDerived

open MysteryBoxService

theorem selectProductsFallback_props (products : List Product) (minValue maxValue : ℚ)
    (minItems maxItems : ℕ) :
    (∀ x ∈ selectProductsFallback products minValue maxValue minItems maxItems, x ∈ products) ∧
    (products.Nodup →
      (selectProductsFallback products minValue maxValue minItems maxItems).Nodup) ∧
    (0 ≤ maxValue →
      sumPrice (selectProductsFallback products minValue maxValue minItems maxItems) ≤ maxValue) ∧
    (minItems ≤ maxItems →
      (selectProductsFallback products minValue maxValue minItems maxItems).length ≤ maxItems) := by
  have h1 := fallbackPhase1_props minValue maxValue minItems maxItems
    (sortByPriceDesc products) [] 0 _ rfl
  unfold selectProductsFallback
  dsimp only
  by_cases hlen : (fallbackPhase1 minValue maxValue minItems maxItems
      (sortByPriceDesc products) [] 0).1.length < minItems
  · rw [if_pos hlen]
    have h2 := fallbackPhase2_props maxValue minItems
      (sortByPriceAsc ((products.filter fun p =>
        !(decide (p ∈ (fallbackPhase1 minValue maxValue minItems maxItems
          (sortByPriceDesc products) [] 0).1)))))
      (fallbackPhase1 minValue maxValue minItems maxItems (sortByPriceDesc products) [] 0).1
      (fallbackPhase1 minValue maxValue minItems maxItems (sortByPriceDesc products) [] 0).2
      _ rfl
    have hphase1_sub : ∀ x ∈ (fallbackPhase1 minValue maxValue minItems maxItems
        (sortByPriceDesc products) [] 0).1, x ∈ products := by
      intro x hx
      rcases h1.2.1 x hx with hx2 | hx2
      · simp at hx2
      · exact mem_sortByPriceDesc.mp hx2
    refine ⟨?_, ?_, ?_, ?_⟩
    · intro x hx
      rcases h2.2.1 x hx with hx2 | hx2
      · exact hphase1_sub x hx2
      · have := mem_sortByPriceAsc.mp hx2
        exact (List.mem_filter.mp this).1
    · intro hnd
      refine h2.2.2.1 ?_ ?_ ?_
      · exact h1.2.2.1 List.nodup_nil (nodup_sortByPriceDesc hnd) (by simp)
      · exact nodup_sortByPriceAsc (hnd.filter _)
      · intro x hx
        have := List.mem_filter.mp (mem_sortByPriceAsc.mp hx)
        simpa using this.2
    · intro hmax
      have hv1 : (fallbackPhase1 minValue maxValue minItems maxItems
          (sortByPriceDesc products) [] 0).2 ≤ maxValue := h1.2.2.2.2 hmax
      have hsum1 : (fallbackPhase1 minValue maxValue minItems maxItems
          (sortByPriceDesc products) [] 0).2 =
          sumPrice (fallbackPhase1 minValue maxValue minItems maxItems
            (sortByPriceDesc products) [] 0).1 := h1.1 rfl
      have := h2.2.2.2.2 hv1
      rw [h2.1 hsum1] at this
      exact this
    · intro hmm
      have hh := h2.2.2.2.1
      omega
  · rw [if_neg hlen]
    refine ⟨?_, ?_, ?_, ?_⟩
    · intro x hx
      rcases h1.2.1 x hx with hx2 | hx2
      · simp at hx2
      · exact mem_sortByPriceDesc.mp hx2
    · intro hnd
      exact h1.2.2.1 List.nodup_nil (nodup_sortByPriceDesc hnd) (by simp)
    · intro hmax
      have := h1.2.2.2.2 hmax
      rw [h1.1 rfl] at this
      exact this
    · intro hmm
      have hh := h1.2.2.2.1
      simp only [List.length_nil, Nat.zero_max] at hh
      omega

theorem ratFloor_le_of_lt {x : ℚ} {m : ℤ} (h : x < (m : ℚ) + 1) : Rat.floor x ≤ m := by
  by_contra hc
  push_neg at hc
  have hle : ((m + 1 : ℤ) : ℚ) ≤ x := Rat.le_floor.mp (by omega)
  push_cast at hle
  linarith

theorem selectProducts_props (products : List Product) (minValue maxValue : ℚ)
    (minItems maxItems : ℕ) (rand : ℕ → ℚ) :
    (∀ x ∈ selectProducts products minValue maxValue minItems maxItems rand, x ∈ products) ∧
    (products.Nodup → (selectProducts products minValue maxValue minItems maxItems rand).Nodup) ∧
    (minValue ≤ maxValue → 0 ≤ maxValue → rand 0 < 1 →
      sumPrice (selectProducts products minValue maxValue minItems maxItems rand) ≤ maxValue) ∧
    (minItems ≤ maxItems → 0 ≤ maxValue → rand 1 < 1 →
      (selectProducts products minValue maxValue minItems maxItems rand).length ≤ maxItems) := by
  have hfb := selectProductsFallback_props products minValue maxValue minItems maxItems
  have hl := selectLoop_props (sortByPriceAsc products) minValue
    (minValue + rand 0 * (maxValue - minValue)) minItems
    ((minItems : ℤ) + Rat.floor (rand 1 * ((maxItems : ℚ) - (minItems : ℚ) + 1)))
    rand 1000 2 [] 0 _ rfl
  unfold selectProducts
  dsimp only
  by_cases hfail : (selectLoop (sortByPriceAsc products) minValue
      (minValue + rand 0 * (maxValue - minValue)) minItems
      ((minItems : ℤ) + Rat.floor (rand 1 * ((maxItems : ℚ) - (minItems : ℚ) + 1)))
      rand 1000 2 [] 0).1.length < minItems ∨
    (selectLoop (sortByPriceAsc products) minValue
      (minValue + rand 0 * (maxValue - minValue)) minItems
      ((minItems : ℤ) + Rat.floor (rand 1 * ((maxItems : ℚ) - (minItems : ℚ) + 1)))
      rand 1000 2 [] 0).2 < minValue
  · rw [if_pos hfail]
    exact ⟨hfb.1, hfb.2.1, fun _ h2 _ => hfb.2.2.1 h2, fun hmm _ _ => hfb.2.2.2 hmm⟩
  · rw [if_neg hfail]
    refine ⟨?_, ?_, ?_, ?_⟩
    · intro x hx
      rcases hl.2.1 x hx with hx2 | hx2
      · simp at hx2
      · exact mem_sortByPriceAsc.mp hx2
    · intro _
      exact hl.2.2.1 List.nodup_nil
    · intro h1 h2 hr
      have htv : minValue + rand 0 * (maxValue - minValue) ≤ maxValue := by
        have hd : (0 : ℚ) ≤ maxValue - minValue := by linarith
        have := mul_le_mul_of_nonneg_right (le_of_lt hr) hd
        rw [one_mul] at this
        linarith
      have hres := hl.2.2.2.2 (le_max_left 0 _)
      have hsum := hl.1 rfl
      rw [hsum] at hres
      exact le_trans hres (max_le h2 htv)
    · intro hmm h2 hr
      have hD : (0 : ℚ) < (maxItems : ℚ) - (minItems : ℚ) + 1 := by
        have : (minItems : ℚ) ≤ (maxItems : ℚ) := by exact_mod_cast hmm
        linarith
      have hx : rand 1 * ((maxItems : ℚ) - (minItems : ℚ) + 1) <
          (maxItems : ℚ) - (minItems : ℚ) + 1 := by
        calc rand 1 * ((maxItems : ℚ) - (minItems : ℚ) + 1) <
            1 * ((maxItems : ℚ) - (minItems : ℚ) + 1) := by
              exact mul_lt_mul_of_pos_right hr hD
          _ = (maxItems : ℚ) - (minItems : ℚ) + 1 := one_mul _
      have hfloor : Rat.floor (rand 1 * ((maxItems : ℚ) - (minItems : ℚ) + 1)) ≤
          (maxItems : ℤ) - (minItems : ℤ) := by
        refine ratFloor_le_of_lt ?_
        push_cast
        linarith
      have hti : (minItems : ℤ) + Rat.floor (rand 1 * ((maxItems : ℚ) - (minItems : ℚ) + 1)) ≤
          (maxItems : ℤ) := by omega
      have hlen := hl.2.2.2.1
      simp only [List.length_nil, Nat.zero_max] at hlen
      omega

end SelectorDerived

section SelectorClaims

open MysteryBoxService

/-- Counterexample to claim C9 as stated: with non-negative prices and
`minValue ≤ maxValue` but a negative `maxValue`, both passes return the
empty selection, whose total `0` exceeds `maxValue`. -/
theorem C9_counterexample :
    (∀ p ∈ [unitProduct], 0 ≤ p.price) ∧ ((-10 : ℚ) ≤ -5) ∧
    (-5 : ℚ) < sumPrice (selectProducts [unitProduct] (-10) (-5) 1 1 zeroRand) ∧
    (-5 : ℚ) < sumPrice (selectProductsFallback [unitProduct] (-10) (-5) 1 1) := by decide

/-- Claim C9 (amended): for templates whose value range additionally
satisfies `0 ≤ maxValue` — true of every template accepted by
`validateConfiguration` — and for random draws in `[0, 1)` as produced by
`Math.random`, the selections of both the primary pass and the fallback
pass have total price at most `maxValue`, even when they fail to meet
`minValue` or `minItems`. -/
theorem C9_theorem (products : List Product) (minValue maxValue : ℚ)
    (minItems maxItems : ℕ) (rand : ℕ → ℚ)
    (_hprices : ∀ p ∈ products, 0 ≤ p.price) (h1 : minValue ≤ maxValue)
    (h2 : 0 ≤ maxValue) (hr : ∀ k, 0 ≤ rand k ∧ rand k < 1) :
    sumPrice (selectProducts products minValue maxValue minItems maxItems rand) ≤ maxValue ∧
    sumPrice (selectProductsFallback products minValue maxValue minItems maxItems) ≤ maxValue :=
  ⟨(selectProducts_props products minValue maxValue minItems maxItems rand).2.2.1 h1 h2 (hr 0).2,
   (selectProductsFallback_props products minValue maxValue minItems maxItems).2.2.1 h2⟩

/-- Witness for C9 on a concrete catalog and template. -/
theorem C9_witness :
    sumPrice (selectProducts [exProduct] 10 60 1 2 zeroRand) ≤ 60 ∧
    sumPrice (selectProductsFallback [exProduct] 10 60 1 2) ≤ 60 :=
  C9_theorem [exProduct] 10 60 1 2 zeroRand (by decide) (by decide) (by decide)
    (fun _ => ⟨le_refl 0, zero_lt_one⟩)

/-- Claim C10: on a catalog of pairwise-distinct products, neither the
primary pass nor the fallback pass ever selects the same product twice. -/
theorem C10_theorem (products : List Product) (hnd : products.Nodup) (minValue maxValue : ℚ)
    (minItems maxItems : ℕ) (rand : ℕ → ℚ) :
    (selectProducts products minValue maxValue minItems maxItems rand).Nodup ∧
    (selectProductsFallback products minValue maxValue minItems maxItems).Nodup :=
  ⟨(selectProducts_props products minValue maxValue minItems maxItems rand).2.1 hnd,
   (selectProductsFallback_props products minValue maxValue minItems maxItems).2.1 hnd⟩

/-- Witness for C10 on a concrete two-product catalog. -/
theorem C10_witness :
    (selectProducts [exProduct, exProduct2] 10 60 1 2 zeroRand).Nodup ∧
    (selectProductsFallback [exProduct, exProduct2] 10 60 1 2).Nodup :=
  C10_theorem [exProduct, exProduct2] (by decide) 10 60 1 2 zeroRand

/-- Claim C1 (amended): `generateMysteryBox` never raises a
constraint-unsatisfiable error — the fallback result is returned unchecked,
as C1's counterexample shows — but every successful call on a validated
template (`0 ≤ minValue ≤ maxValue`, `minItems ≤ maxItems`) with random
draws in `[0, 1)` satisfies the upper bounds `totalValue ≤ maxValue` and
`itemCount ≤ maxItems`. -/
theorem C1_theorem (cfg : MysteryBoxConfig) (catalog : List Product) (rand : ℕ → ℚ)
    (h0 : 0 ≤ cfg.minValue) (h1 : cfg.minValue ≤ cfg.maxValue)
    (h2 : cfg.minItems ≤ cfg.maxItems) (hr : ∀ k, 0 ≤ rand k ∧ rand k < 1)
    (inst : BoxInstance) (hok : generateMysteryBox cfg catalog rand = .ok inst) :
    inst.totalValue ≤ cfg.maxValue ∧ inst.itemCount ≤ cfg.maxItems := by
  unfold generateMysteryBox at hok
  by_cases hempty : (eligibleProducts cfg catalog).isEmpty
  · rw [if_pos hempty] at hok
    simp at hok
  · rw [if_neg hempty] at hok
    dsimp only at hok
    have heq := Except.ok.inj hok
    subst heq
    constructor
    · exact (selectProducts_props (eligibleProducts cfg catalog) cfg.minValue cfg.maxValue
        cfg.minItems cfg.maxItems rand).2.2.1 h1 (le_trans h0 h1) (hr 0).2
    · exact (selectProducts_props (eligibleProducts cfg catalog) cfg.minValue cfg.maxValue
        cfg.minItems cfg.maxItems rand).2.2.2 h2 (le_trans h0 h1) (hr 1).2

/-- Witness for C1 at a satisfiable concrete template and catalog. -/
theorem C1_witness :
    ∃ inst, generateMysteryBox easyConfig [exProduct] zeroRand = .ok inst ∧
      inst.totalValue ≤ easyConfig.maxValue ∧ inst.itemCount ≤ easyConfig.maxItems := by
  refine ⟨{ products := [exProduct], totalValue := 5, itemCount := 1, savings := 0 },
    by decide, ?_⟩
  exact C1_theorem easyConfig [exProduct] zeroRand (by decide) (by decide) (by decide)
    (fun _ => ⟨le_refl 0, zero_lt_one⟩) _ (by decide)

/-- Claim C6 (amended): every product selected into a bundle whose stored
tag string parses to a tag list satisfies the tag filters: with a non-empty
`includeTags` some include tag is contained (case-insensitively) in one of
its tags, and with a non-empty `excludeTags` no exclude tag is.  (A product
whose tag string does not parse bypasses both filters, as C6's
counterexample shows.) -/
theorem C6_theorem (cfg : MysteryBoxConfig) (catalog : List Product) (rand : ℕ → ℚ)
    (p : Product) (ts : List String)
    (hmem : p ∈ mysteryBoxSelection cfg catalog rand) (hts : p.tags = some ts) :
    (cfg.includeTags ≠ [] → ∃ t ∈ cfg.includeTags, ∃ pt ∈ ts, tagMatches t pt = true) ∧
    (cfg.excludeTags ≠ [] → ¬∃ t ∈ cfg.excludeTags, ∃ pt ∈ ts, tagMatches t pt = true) := by
  have hel : p ∈ eligibleProducts cfg catalog :=
    (selectProducts_props (eligibleProducts cfg catalog) cfg.minValue cfg.maxValue
      cfg.minItems cfg.maxItems rand).1 p hmem
  have hpass : passesTagFilter cfg p = true := (List.mem_filter.mp hel).2
  rw [passesTagFilter, hts] at hpass
  simp only [Bool.and_eq_true, Bool.or_eq_true, Bool.not_eq_true',
    List.any_eq_true, List.isEmpty_iff, Bool.and_eq_false_iff] at hpass
  constructor
  · intro hne
    rcases hpass.1 with h | h
    · exact absurd h hne
    · obtain ⟨t, ht, pt, hpt, hm⟩ := h
      exact ⟨t, ht, pt, hpt, hm⟩
  · intro hne hcontra
    obtain ⟨t, ht, pt, hpt, hm⟩ := hcontra
    rcases hpass.2 with h | h
    · have hnil : cfg.excludeTags = [] := by simpa using h
      exact hne hnil
    · have hany : ¬(cfg.excludeTags.any fun tag => ts.any fun pTag => tagMatches tag pTag) = true := by
        simp [h]
      apply hany
      simp only [List.any_eq_true]
      exact ⟨t, ht, pt, hpt, hm⟩

end SelectorClaims

section TagWitness

open MysteryBoxService

/-- Witness for C6 at a concrete selected product with parseable tags. -/
theorem C6_witness :
    electronicsTagProduct ∈
      mysteryBoxSelection electronicsTagConfig [electronicsTagProduct] zeroRand ∧
    ((electronicsTagConfig.includeTags ≠ [] →
      ∃ t ∈ electronicsTagConfig.includeTags, ∃ pt ∈ ["Electronics-Gadget"],
        tagMatches t pt = true) ∧
    (electronicsTagConfig.excludeTags ≠ [] →
      ¬∃ t ∈ electronicsTagConfig.excludeTags, ∃ pt ∈ ["Electronics-Gadget"],
        tagMatches t pt = true)) :=
  ⟨by decide, C6_theorem electronicsTagConfig [electronicsTagProduct] zeroRand
    electronicsTagProduct ["Electronics-Gadget"] (by decide) rfl⟩

end TagWitness

section UpsertLemmas

open ShopifySync

theorem buildProductData_id (p : RawProduct) (d : CachedProduct)
    (h : buildProductData p = .ok d) : d.shopifyProductId = p.id := by
  unfold buildProductData at h
  cases hv : p.variants with
  | none => rw [hv] at h; cases h
  | some vs =>
    rw [hv] at h
    cases hi : p.images with
    | none => rw [hi] at h; cases h
    | some im =>
      rw [hi] at h
      have := Except.ok.inj h
      subst this
      rfl

theorem upsertRow_created_false (store : Store) (row : CachedProduct)
    (h : hasId store row.shopifyProductId) : (upsertRow store row).1 = false := by
  induction store with
  | nil => obtain ⟨r, hr, _⟩ := h; cases hr
  | cons r rs ih =>
    rw [upsertRow]
    by_cases he : r.shopifyProductId = row.shopifyProductId
    · rw [if_pos he]
    · rw [if_neg he]
      dsimp only
      apply ih
      obtain ⟨r2, hr2, hid⟩ := h
      rcases List.mem_cons.mp hr2 with h3 | h3
      · subst h3; exact absurd hid he
      · exact ⟨r2, h3, hid⟩

theorem hasId_upsertRow_of (store : Store) (row : CachedProduct) (i : ℕ)
    (h : hasId store i) : hasId (upsertRow store row).2 i := by
  induction store with
  | nil => obtain ⟨r, hr, _⟩ := h; cases hr
  | cons r rs ih =>
    rw [upsertRow]
    obtain ⟨r2, hr2, hid⟩ := h
    by_cases he : r.shopifyProductId = row.shopifyProductId
    · rw [if_pos he]
      dsimp only
      rcases List.mem_cons.mp hr2 with h3 | h3
      · refine ⟨row, List.mem_cons_self _ _, ?_⟩
        rw [← he, ← h3]
        exact hid
      · exact ⟨r2, List.mem_cons_of_mem _ h3, hid⟩
    · rw [if_neg he]
      dsimp only
      rcases List.mem_cons.mp hr2 with h3 | h3
      · subst h3
        exact ⟨r2, List.mem_cons_self _ _, hid⟩
      · obtain ⟨r3, hr3, hid3⟩ := ih ⟨r2, h3, hid⟩
        exact ⟨r3, List.mem_cons_of_mem _ hr3, hid3⟩

theorem hasId_upsertRow_self (store : Store) (row : CachedProduct) :
    hasId (upsertRow store row).2 row.shopifyProductId := by
  induction store with
  | nil =>
    rw [upsertRow]
    exact ⟨row, List.mem_cons_self _ _, rfl⟩
  | cons r rs ih =>
    rw [upsertRow]
    by_cases he : r.shopifyProductId = row.shopifyProductId
    · rw [if_pos he]
      exact ⟨row, List.mem_cons_self _ _, rfl⟩
    · rw [if_neg he]
      dsimp only
      obtain ⟨r3, hr3, hid3⟩ := ih
      exact ⟨r3, List.mem_cons_of_mem _ hr3, hid3⟩

theorem cacheAll_ok_props :
    ∀ (ps : List RawProduct) (store : Store) (c u : ℕ) (res : (ℕ × ℕ) × Store),
      cacheAll ps store c u = .ok res →
      (∀ p ∈ ps, ∃ d, buildProductData p = .ok d) ∧
      (∀ i, hasId store i → hasId res.2 i) ∧
      (∀ p ∈ ps, hasId res.2 p.id) := by
  intro ps
  induction ps with
  | nil =>
    intro store c u res h
    rw [cacheAll] at h
    have := Except.ok.inj h
    subst this
    exact ⟨by simp, fun i hi => hi, by simp⟩
  | cons p ps ih =>
    intro store c u res h
    rw [cacheAll] at h
    cases hb : buildProductData p with
    | error e =>
      rw [show cacheProduct store p = .error e by rw [cacheProduct, hb]] at h
      cases h
    | ok d =>
      rw [show cacheProduct store p = .ok (upsertRow store d) by rw [cacheProduct, hb]] at h
      dsimp only at h
      have hrec := ih (upsertRow store d).2 _ _ res h
      refine ⟨?_, ?_, ?_⟩
      · intro p2 hp2
        rcases List.mem_cons.mp hp2 with h3 | h3
        · subst h3; exact ⟨d, hb⟩
        · exact hrec.1 p2 h3
      · intro i hi
        exact hrec.2.1 i (hasId_upsertRow_of store d i hi)
      · intro p2 hp2
        rcases List.mem_cons.mp hp2 with h3 | h3
        · have hself := hasId_upsertRow_self store d
          rw [buildProductData_id p d hb] at hself
          rw [h3]
          exact hrec.2.1 _ hself
        · exact hrec.2.2 p2 h3

theorem cacheAll_second :
    ∀ (ps : List RawProduct) (store : Store) (c u : ℕ),
      (∀ p ∈ ps, hasId store p.id) → (∀ p ∈ ps, ∃ d, buildProductData p = .ok d) →
      ∃ st, cacheAll ps store c u = .ok ((c, u + ps.length), st) := by
  intro ps
  induction ps with
  | nil =>
    intro store c u _ _
    refine ⟨store, ?_⟩
    rw [cacheAll]
    simp
  | cons p ps ih =>
    intro store c u hids hbuilds
    obtain ⟨d, hd⟩ := hbuilds p (List.mem_cons_self _ _)
    have hcreated : (upsertRow store d).1 = false := by
      apply upsertRow_created_false
      rw [buildProductData_id p d hd]
      exact hids p (List.mem_cons_self _ _)
    have hids2 : ∀ p2 ∈ ps, hasId (upsertRow store d).2 p2.id :=
      fun p2 h2 => hasId_upsertRow_of store d _ (hids p2 (List.mem_cons_of_mem _ h2))
    obtain ⟨st, hst⟩ := ih (upsertRow store d).2 c (u + 1) hids2
      (fun p2 h2 => hbuilds p2 (List.mem_cons_of_mem _ h2))
    refine ⟨st, ?_⟩
    rw [cacheAll, show cacheProduct store p = .ok (upsertRow store d) by rw [cacheProduct, hd]]
    simp only [hcreated, Bool.false_eq_true, if_false]
    rw [hst]
    have harith : u + 1 + ps.length = u + (p :: ps).length := by
      simp [List.length_cons]
      omega
    rw [harith]

/-- Claim C2 (amended): re-running `ShopifyService.syncProducts` against
unchanged upstream data succeeds with `created = 0` and
`updated = totalFetched`: `cacheProduct` reports every upsert of an
already-cached row as an update without comparing item-level fields, so an
idempotent re-sync is counted entirely as `updated`, never as `0`. -/
theorem C2_theorem (fetch : Option String → FetchPage) (store : Store) (r1 : SyncReport)
    (store1 : Store) (h : syncProducts fetch store = .ok (r1, store1)) :
    ∃ r2 store2, syncProducts fetch store1 = .ok (r2, store2) ∧ r2.created = 0 ∧
      r2.updated = r2.totalProducts := by
  unfold syncProducts at h ⊢
  dsimp only at h ⊢
  cases hc : cacheAll (fetchAllPages fetch).1 store 0 0 with
  | error e => rw [hc] at h; cases h
  | ok res =>
    rw [hc] at h
    dsimp only at h
    have hinj := Except.ok.inj h
    have hstore1 : store1 = res.2 := (Prod.mk.injEq _ _ _ _ |>.mp hinj).2.symm
    have hprops := cacheAll_ok_props (fetchAllPages fetch).1 store 0 0 res hc
    have hids : ∀ p ∈ (fetchAllPages fetch).1, hasId store1 p.id := by
      rw [hstore1]
      exact hprops.2.2
    obtain ⟨st, hst⟩ := cacheAll_second (fetchAllPages fetch).1 store1 0 0 hids hprops.1
    rw [hst]
    dsimp only
    exact ⟨_, st, rfl, rfl, by simp⟩

/-- Witness for C2: the second sync of the one-product upstream `exFetch`
reports zero creates and counts every fetched product as updated. -/
theorem C2_witness :
    ∃ r2 store2,
      syncProducts exFetch
          [{ shopifyProductId := 1, price := .val 5, inventoryQuantity := 2 }] =
        .ok (r2, store2) ∧ r2.created = 0 ∧ r2.updated = r2.totalProducts :=
  C2_theorem exFetch [] { totalProducts := 1, created := 1, updated := 0, pages := 1 }
    [{ shopifyProductId := 1, price := .val 5, inventoryQuantity := 2 }] (by decide)

end UpsertLemmas

section RowInvariantLemmas

open ShopifySync

theorem buildProductData_rowOk (p : RawProduct) (hw : ∀ v ∈ p.variants.getD [], variantOk v)
    (d : CachedProduct) (hd : buildProductData p = .ok d) : rowOk d := by
  unfold buildProductData at hd
  cases hv : p.variants with
  | none => rw [hv] at hd; cases hd
  | some vs =>
    rw [hv] at hd
    rw [hv] at hw
    cases hi : p.images with
    | none => rw [hi] at hd; cases hd
    | some im =>
      rw [hi] at hd
      have := Except.ok.inj hd
      subst this
      constructor
      · cases vs with
        | nil => exact le_refl 0
        | cons v vr => exact (hw v (List.mem_cons_self _ _)).1
      · apply List.sum_nonneg
        intro x hx
        simp only [List.mem_map] at hx
        obtain ⟨v, hv2, rfl⟩ := hx
        exact (hw v hv2).2

theorem upsertRow_rowOk (store : Store) (row : CachedProduct)
    (hs : ∀ r ∈ store, rowOk r) (hrow : rowOk row) :
    ∀ r ∈ (upsertRow store row).2, rowOk r := by
  induction store with
  | nil =>
    intro r hr
    rw [upsertRow] at hr
    simp only [List.mem_singleton] at hr
    subst hr
    exact hrow
  | cons r0 rs ih =>
    intro r hr
    rw [upsertRow] at hr
    by_cases he : r0.shopifyProductId = row.shopifyProductId
    · rw [if_pos he] at hr
      rcases List.mem_cons.mp hr with h3 | h3
      · subst h3; exact hrow
      · exact hs r (List.mem_cons_of_mem _ h3)
    · rw [if_neg he] at hr
      dsimp only at hr
      rcases List.mem_cons.mp hr with h3 | h3
      · rw [h3]
        exact hs r0 (List.mem_cons_self _ _)
      · exact ih (fun r2 h2 => hs r2 (List.mem_cons_of_mem _ h2)) r h3

theorem cacheAll_rowOk :
    ∀ (ps : List RawProduct) (store : Store) (c u : ℕ) (res : (ℕ × ℕ) × Store),
      (∀ p ∈ ps, ∀ v ∈ p.variants.getD [], variantOk v) →
      (∀ r ∈ store, rowOk r) → cacheAll ps store c u = .ok res →
      ∀ r ∈ res.2, rowOk r := by
  intro ps
  induction ps with
  | nil =>
    intro store c u res _ hs h
    rw [cacheAll] at h
    have := Except.ok.inj h
    subst this
    exact hs
  | cons p ps ih =>
    intro store c u res hw hs h
    rw [cacheAll] at h
    cases hb : buildProductData p with
    | error e =>
      rw [show cacheProduct store p = .error e by rw [cacheProduct, hb]] at h
      cases h
    | ok d =>
      rw [show cacheProduct store p = .ok (upsertRow store d) by rw [cacheProduct, hb]] at h
      dsimp only at h
      have hrowd : rowOk d :=
        buildProductData_rowOk p (hw p (List.mem_cons_self _ _)) d hb
      exact ih (upsertRow store d).2 _ _ res
        (fun p2 h2 => hw p2 (List.mem_cons_of_mem _ h2))
        (upsertRow_rowOk store d hs hrowd) h

theorem fetchPagesAux_products (fetch : Option String → FetchPage) :
    ∀ (fuel : ℕ) (cursor : Option String) (acc : List RawProduct) (pages : ℕ),
      ∀ p ∈ (fetchPagesAux fetch fuel cursor acc pages).1,
        p ∈ acc ∨ ∃ c, p ∈ (fetch c).products := by
  intro fuel
  induction fuel with
  | zero =>
    intro cursor acc pages p hp
    rw [fetchPagesAux] at hp
    exact Or.inl hp
  | succ f ih =>
    intro cursor acc pages p hp
    rw [fetchPagesAux] at hp
    cases hn : (fetch cursor).nextPageInfo with
    | none =>
      rw [hn] at hp
      dsimp only at hp
      rcases List.mem_append.mp hp with h | h
      · exact Or.inl h
      · exact Or.inr ⟨cursor, h⟩
    | some c =>
      rw [hn] at hp
      dsimp only at hp
      by_cases hf : 0 < f
      · rw [if_pos hf] at hp
        rcases ih (some c) (acc ++ (fetch cursor).products) (pages + 1) p hp with h | h
        · rcases List.mem_append.mp h with h2 | h2
          · exact Or.inl h2
          · exact Or.inr ⟨cursor, h2⟩
        · exact Or.inr h
      · rw [if_neg hf] at hp
        dsimp only at hp
        rcases List.mem_append.mp hp with h | h
        · exact Or.inl h
        · exact Or.inr ⟨cursor, h⟩

/-- Claim C3 (amended): when every variant of every fetched product carries
a non-negative parseable price and non-negative inventory — and the store's
existing rows already satisfy the row invariant — every row stored by a
successful `ShopifyService.syncProducts` run has `price ≥ 0` and
`stockQuantity ≥ 0`; a zero-variant product, however, is not rejected: the
`ShopifyService` path stores it with price 0 and stock 0 (claim C3's
counterexample), and `LiveShopifyService.syncProducts` skips it without
counting it as an error. -/
theorem C3_theorem :
    (∀ (fetch : Option String → FetchPage) (store : Store) (rep : SyncReport) (store2 : Store),
      fetchWellFormed fetch → (∀ r ∈ store, rowOk r) →
      syncProducts fetch store = .ok (rep, store2) → ∀ r ∈ store2, rowOk r) ∧
    (∀ (p : RawProduct) (store : Store), p.variants = some [] →
      liveSyncProducts [p] store =
        ({ syncedCount := 0, errorCount := 0, totalProducts := 1 }, store)) := by
  constructor
  · intro fetch store rep store2 hwf hs h
    unfold syncProducts at h
    dsimp only at h
    cases hc : cacheAll (fetchAllPages fetch).1 store 0 0 with
    | error e => rw [hc] at h; cases h
    | ok res =>
      rw [hc] at h
      dsimp only at h
      have hinj := Except.ok.inj h
      have hstore2 : store2 = res.2 := (Prod.mk.injEq _ _ _ _ |>.mp hinj).2.symm
      have hw : ∀ p ∈ (fetchAllPages fetch).1, ∀ v ∈ p.variants.getD [], variantOk v := by
        intro p hp
        rcases fetchPagesAux_products fetch maxPages none [] 0 p hp with h2 | h2
        · cases h2
        · obtain ⟨c, hc2⟩ := h2
          exact hwf c p hc2
      rw [hstore2]
      exact cacheAll_rowOk (fetchAllPages fetch).1 store 0 0 res hw hs hc
  · intro p store hv
    simp [liveSyncProducts, liveSyncAux, hv]

/-- Witness for C3: the row invariant evaluated after syncing the
well-formed one-product upstream `exFetch`, and the zero-variant skip of
the live sync at a concrete product. -/
theorem C3_witness :
    (∀ r ∈ ([{ shopifyProductId := 1, price := .val 5, inventoryQuantity := 2 }] : Store),
      rowOk r) ∧
    liveSyncProducts [zeroVariantRaw] [] =
      ({ syncedCount := 0, errorCount := 0, totalProducts := 1 }, ([] : Store)) :=
  ⟨C3_theorem.1 exFetch [] { totalProducts := 1, created := 1, updated := 0, pages := 1 }
      [{ shopifyProductId := 1, price := .val 5, inventoryQuantity := 2 }]
      (fun cursor => by
        show ∀ p ∈ [exRaw], ∀ v ∈ p.variants.getD [], variantOk v
        decide) (by simp) (by decide),
   C3_theorem.2 zeroVariantRaw [] rfl⟩

end RowInvariantLemmas
